import Mathlib

/-!
Shallow embedding of the lead-generation pipeline of this repository
(`LeadGeneration/lead_generation.py`, the "base" variant, and
`LeadGeneration/lead_generation_with_agent.py`, the "agent" / AI-augmented
variant), together with theorems settling the specification claims.

Network effects are modelled by injected stubs:
a HEAD probe is `String → Option Nat` (`none` = transport exception,
`some s` = the final HTTP status after redirects), and a page fetch is
`String → Option (List String)` (`none` = fetch/parse exception, `some cs` =
the raw candidate e-mail strings that the four extraction techniques collect
from the parsed page; the Python code gathers them into a `set`, so a
faithful instantiation of the stub is duplicate-free).
Python string primitives are modelled on the character list of a `String`.
-/

/-- Model of Python `str.lower()` (ASCII case folding, as `Char.toLower`),
defined on the character list so that it can be reasoned about directly. -/
def pyLower (s : String) : String := ⟨s.data.map Char.toLower⟩

/-- Boolean list-prefix test used to implement the Python substring test. -/
def chPfx : List Char → List Char → Bool
  | [], _ => true
  | _ :: _, [] => false
  | a :: as, b :: bs => a == b && chPfx as bs

/-- Boolean substring occurrence test on character lists: `hasSub pat hay`
holds when `pat` occurs contiguously inside `hay`. -/
def hasSub : List Char → List Char → Bool
  | pat, [] => pat.isEmpty
  | pat, c :: rest => chPfx pat (c :: rest) || hasSub pat rest

/-- Model of the Python containment test `pat in hay` on strings. -/
def pyContains (hay pat : String) : Bool := hasSub pat.data hay.data

/-- Model of Python `s.replace(c, repl)` for a single-character pattern `c`
(the only shape of `str.replace` the source uses). -/
def pyReplaceChar (c : Char) (repl : String) (s : String) : String :=
  ⟨s.data.flatMap (fun ch => if ch = c then repl.data else [ch])⟩

/-- Model of Python `s.split()` (split on whitespace runs, dropping empty
pieces). -/
def pySplitWs (s : String) : List String :=
  ((s.data.splitOnP (fun c => c.isWhitespace)).filter (fun w => w ≠ [])).map
    (fun w => ⟨w⟩)

/-- Model of `''.join([word[0] for word in name.split()]).lower()`, the
acronym variant both resolvers derive. -/
def acronymOf (name : String) : String :=
  pyLower (String.join ((pySplitWs name).map (fun w => ⟨w.data.take 1⟩)))

/-- The configuration surface shared by both variants (the tunables the
claims depend on, from the `CONFIG` dictionaries). -/
structure Config where
  max_emails_per_company : Nat
  contact_keywords : List String
  email_domains : List String
  ignore_email_patterns : List String
deriving Repr, DecidableEq

/-- `CONFIG` of `lead_generation.py`. -/
def baseConfig : Config where
  max_emails_per_company := 5
  contact_keywords := ["contact", "about", "team", "connect", "reach", "sales",
    "support", "help"]
  email_domains := ["com", "io", "ai", "co", "org", "net", "us", "uk", "ca"]
  ignore_email_patterns := ["noreply", "no-reply", "support", "info", "hello",
    "mailer", "notification"]

/-- `CONFIG` of `lead_generation_with_agent.py`. -/
def agentConfig : Config where
  max_emails_per_company := 5
  contact_keywords := ["contact", "about", "team", "connect", "reach", "sales"]
  email_domains := ["com", "io", "ai", "co", "org", "net", "us", "uk", "ca",
    "de", "fr", "au"]
  ignore_email_patterns := ["noreply", "no-reply", "support", "info", "hello",
    "mailer"]

/-- `check_url_exists` (identical in both variants): the ProbeCache is the
`processed_urls` set, here a list with membership.  Under the lock the URL is
first looked up (cache hit returns `False` with no network I/O) and recorded
before the HEAD request is issued; the probe returns `True` exactly for
status 200 and `False` for any exception (`none`).  The whole body sits in a
`try`/`except`, so the function is total. -/
def check_url_exists (fetchHead : String → Option Nat) (cache : List String)
    (url : String) : Bool × List String :=
  if url ∈ cache then (false, cache)
  else
    let cache' := url :: cache
    match fetchHead url with
    | some status => (status == 200, cache')
    | none => (false, cache')

/-- `check_url_exists`, instrumented with the list of URLs for which a
network (HEAD) request is actually issued: the request happens exactly in
the branch where the URL was not yet in the ProbeCache. -/
def check_url_exists_traced (fetchHead : String → Option Nat)
    (cache : List String) (url : String) : Bool × List String × List String :=
  if url ∈ cache then (false, cache, [])
  else
    let cache' := url :: cache
    match fetchHead url with
    | some status => (status == 200, cache', [url])
    | none => (false, cache', [url])

/-- A run of consecutive prober calls (any interleaving of the per-company
tasks serialises to such a sequence, since the cache test-and-set happens
under the lock): returns the concatenated network-request trace. -/
def probe_run (fetchHead : String → Option Nat) :
    List String → List String → List String
  | _, [] => []
  | cache, url :: rest =>
    let step := check_url_exists_traced fetchHead cache url
    step.2.2 ++ probe_run fetchHead step.2.1 rest

/-- Two consecutive probes of the same URL starting from a fresh (empty)
ProbeCache; returns the two booleans. -/
def probe_twice (fetchHead : String → Option Nat) (url : String) :
    Bool × Bool :=
  let first := check_url_exists fetchHead [] url
  let second := check_url_exists fetchHead first.2 url
  (first.1, second.1)

/-- `extract_emails_from_page` of the base variant, given the raw candidate
set collected by the four techniques (`fetchPage url = none` models a
fetch/parse exception, answered by the blanket `except` with `[]`).  The
post-filter drops any candidate whose lowercased form contains a deny-listed
substring, and the result is truncated to `max_emails_per_company`. -/
def base_extract (fetchPage : String → Option (List String)) (cfg : Config)
    (url : String) : List String :=
  match fetchPage url with
  | none => []
  | some candidates =>
    let filtered := candidates.filter (fun e =>
      ! cfg.ignore_email_patterns.any (fun pat => pyContains (pyLower e) pat))
    filtered.take cfg.max_emails_per_company

/-- `extract_emails_from_page` of the agent variant: same filter, but the
kept candidates are lowercased (`e.lower() for e in emails if ...`) before
truncation. -/
def agent_extract (fetchPage : String → Option (List String)) (cfg : Config)
    (url : String) : List String :=
  match fetchPage url with
  | none => []
  | some candidates =>
    let filtered := (candidates.filter (fun e =>
      ! cfg.ignore_email_patterns.any (fun pat =>
        pyContains (pyLower e) pat))).map pyLower
    filtered.take cfg.max_emails_per_company

/-- The name variants of `get_company_domain` in the base variant:
lowercase with spaces removed, lowercase hyphenated, and the acronym. -/
def base_name_variants (company : String) : List String :=
  [pyReplaceChar ' ' "" (pyLower company),
   pyReplaceChar ' ' "-" (pyLower company),
   acronymOf company]

/-- The candidate URLs of the pattern phase of `get_company_domain` in the
base variant (the Python code accumulates them in a set `variations`; this
list carries the same members). -/
def base_candidate_urls (cfg : Config) (company : String) : List String :=
  (base_name_variants company).flatMap (fun name =>
    cfg.email_domains.flatMap (fun domain =>
      ["https://" ++ name ++ "." ++ domain,
       "https://www." ++ name ++ "." ++ domain]))

/-- The name variants of `get_company_domain` in the agent variant: the same
three plus a fourth, lowercase with spaces removed and `&` replaced by
`and`. -/
def agent_name_variations (company : String) : List String :=
  [pyReplaceChar ' ' "" (pyLower company),
   pyReplaceChar ' ' "-" (pyLower company),
   pyReplaceChar '&' "and" (pyReplaceChar ' ' "" (pyLower company)),
   acronymOf company]

/-- The candidate URLs of the pattern phase of `get_company_domain` in the
agent variant. -/
def agent_candidate_urls (cfg : Config) (company : String) : List String :=
  (agent_name_variations company).flatMap (fun name =>
    cfg.email_domains.flatMap (fun domain =>
      (["", "www."] : List String).flatMap (fun pre =>
        ["https://" ++ pre ++ name ++ "." ++ domain])))

/-- Modelled from the spec: the candidate set described in §4.2 — the cross
product of exactly three name variants (lowercase no-space, lowercase
hyphenated, acronym of first letters) with the top-level-domain list and the
two prefixes empty and `www.`.  Stated separately from the source-derived
candidate lists so the two can be compared. -/
def spec_pattern_candidates (tlds : List String) (company : String) :
    List String :=
  ([pyReplaceChar ' ' "" (pyLower company),
    pyReplaceChar ' ' "-" (pyLower company),
    acronymOf company]).flatMap (fun v =>
      tlds.flatMap (fun d =>
        (["", "www."] : List String).map (fun pre =>
          "https://" ++ pre ++ v ++ "." ++ d)))

/-- `search_emails_with_api` of the agent variant, past the network call:
`searchResults = none` models a raised exception (answered with `[]`);
otherwise each entry is the list of regex matches found in one result's
`content` field.  Matches are filtered against the deny-list, lowercased,
collected in a set, and truncated. -/
def search_emails_with_api (searchResults : Option (List (List String)))
    (cfg : Config) : List String :=
  match searchResults with
  | none => []
  | some results =>
    let emails := (results.flatMap (fun found_emails =>
      (found_emails.filter (fun e =>
        ! cfg.ignore_email_patterns.any (fun pat =>
          pyContains (pyLower e) pat))).map pyLower)).dedup
    emails.take cfg.max_emails_per_company

/-- The record assembled by `get_company_info` in the base variant.  The
`emails` CSV cell is `', '.join(all_emails)`; it is modelled as the list
being joined.  The wall-clock `date_collected` field is omitted. -/
structure BaseRecord where
  company : String
  website : String
  linkedin : String
  service_category : String
  emails : List String
  email_count : Nat
  contact_page : String
  status : String
deriving Repr, DecidableEq

/-- The record assembled by `get_company_info` in the agent variant.  The
`emails` cell is `', '.join(list(emails)[:max_emails_per_company])`,
modelled as the truncated list; `email_count` is `len(emails)` of the full
set.  The static `service_description` field, the wall-clock field and the
spread-in `ai_insights` keys are omitted. -/
structure AgentRecord where
  company : String
  website : String
  service : String
  emails : List String
  email_count : Nat
  status : String
deriving Repr, DecidableEq

/-- The deeper-search loop of the base `get_company_info` (step 5): walk the
fixed page list, probe `urljoin(website, page)`, and on a live URL extract;
the loop stops at the first page whose extraction is non-empty. -/
def base_deeper_search (fetchHead : String → Option Nat)
    (fetchPage : String → Option (List String))
    (joinUrl : String → String → String) (cfg : Config) (website : String) :
    List String → List String → List String × List String
  | cache, [] => ([], cache)
  | cache, page :: rest =>
    let deeper_url := joinUrl website page
    let step := check_url_exists fetchHead cache deeper_url
    if step.1 then
      let deeper_emails := base_extract fetchPage cfg deeper_url
      if deeper_emails = [] then
        base_deeper_search fetchHead fetchPage joinUrl cfg website step.2 rest
      else (deeper_emails, step.2)
    else base_deeper_search fetchHead fetchPage joinUrl cfg website step.2 rest

/-- Step 4 of the base `get_company_info`: emails are extracted from the
website and, when a distinct contact page was found, from the contact
page. -/
def base_email_sources (findContactPage : String → Option String)
    (website : String) : List String :=
  [website] ++
    (match findContactPage website with
     | some cp => if cp ≠ website then [cp] else []
     | none => [])

/-- Steps 4–5 of the base `get_company_info`: the extracted emails of every
source are concatenated and deduplicated exactly as `list(set(all_emails))`
does; if the result is empty the deeper-search loop runs over the fixed
page list.  Returns the final e-mail list and the final ProbeCache. -/
def base_all_emails (fetchHead : String → Option Nat)
    (fetchPage : String → Option (List String))
    (findContactPage : String → Option String)
    (joinUrl : String → String → String) (cfg : Config) (cache : List String)
    (website : String) : List String × List String :=
  let gathered := (base_email_sources findContactPage website).flatMap
    (fun src => base_extract fetchPage cfg src)
  let deduped := gathered.dedup
  if deduped = [] then
    base_deeper_search fetchHead fetchPage joinUrl cfg website cache
      ["/about", "/team", "/company", "/leadership", "/people"]
  else (deduped, cache)

/-- `get_company_info` of the base variant, from the point where the website
has been resolved (`website?` is the `get_company_domain` result; `none`
yields no record).  `find_linkedin_profile`, `find_contact_page` and
`urljoin` are injected collaborators.  Returns the optional record and the
final ProbeCache. -/
def base_get_company_info (fetchHead : String → Option Nat)
    (fetchPage : String → Option (List String))
    (findLinkedin : String → Option String)
    (findContactPage : String → Option String)
    (joinUrl : String → String → String) (cfg : Config) (cache : List String)
    (company service_category : String) (website? : Option String) :
    Option BaseRecord × List String :=
  match website? with
  | none => (none, cache)
  | some website =>
    let linkedin := findLinkedin company
    let contact_page := findContactPage website
    let emailsState := base_all_emails fetchHead fetchPage findContactPage
      joinUrl cfg cache website
    let all_emails := emailsState.1
    (some {
      company := company
      website := website
      linkedin := linkedin.getD ""
      service_category := service_category
      emails := all_emails
      email_count := all_emails.length
      contact_page := contact_page.getD ""
      status := if all_emails = [] then "No emails found" else "Success" },
     emailsState.2)

/-- Step 3 of the agent `get_company_info`: the final e-mail set, as the
union (Python `set.update`) of the search-API result and — when the set is
still below the maximum and a contact page is found — the scraped contact
page extraction. -/
def agent_final_emails (searchResults : Option (List (List String)))
    (fetchPage : String → Option (List String))
    (findContactPage : String → Option String) (cfg : Config)
    (website : String) : List String :=
  let api_emails := search_emails_with_api searchResults cfg
  let emails₁ := api_emails.dedup
  if emails₁.length < cfg.max_emails_per_company then
    match findContactPage website with
    | some contact_page =>
      (emails₁ ++ agent_extract fetchPage cfg contact_page).dedup
    | none => emails₁
  else emails₁

/-- `get_company_info` of the agent variant, from the point where the
website has been resolved.  The AI-insight call only contributes extra
record keys (omitted here); `find_contact_page` is injected. -/
def agent_get_company_info (searchResults : Option (List (List String)))
    (fetchPage : String → Option (List String))
    (findContactPage : String → Option String) (cfg : Config)
    (company service : String) (website? : Option String) :
    Option AgentRecord :=
  match website? with
  | none => none
  | some website =>
    let emails₂ := agent_final_emails searchResults fetchPage findContactPage
      cfg website
    some {
      company := company
      website := website
      service := service
      emails := emails₂.take cfg.max_emails_per_company
      email_count := emails₂.length
      status := if emails₂ = [] then "Partial" else "Success" }

/-- Probe stub that never answers (every HEAD request raises). -/
def fhNone : String → Option Nat := fun _ => none

/-- Page stub on which every fetch raises. -/
def fpNone : String → Option (List String) := fun _ => none

/-- Collaborator stub returning no result. -/
def fsNone : String → Option String := fun _ => none

/-- `urljoin` stub: plain concatenation (the join itself is irrelevant to
the record-level claims). -/
def joinCat : String → String → String := fun b p => b ++ p

/-- Page stub: the website and the contact page each yield five pairwise
distinct filter-passing candidates. -/
def fpTwoPages : String → Option (List String) := fun u =>
  if u = "https://acme.com" then
    some ["a1@acme.com", "a2@acme.com", "a3@acme.com", "a4@acme.com",
      "a5@acme.com"]
  else if u = "https://acme.com/contact" then
    some ["b1@acme.com", "b2@acme.com", "b3@acme.com", "b4@acme.com",
      "b5@acme.com"]
  else none

/-- Contact-page stub resolving to the Acme contact page. -/
def fcAcmeContact : String → Option String := fun _ => some "https://acme.com/contact"

/-- Page stub whose candidate set holds the same address in two casings. -/
def fpMixedCase : String → Option (List String) := fun _ =>
  some ["A@x.com", "a@x.com"]

/-- Page stub with three candidates, one deny-listed. -/
def fpThree : String → Option (List String) := fun _ =>
  some ["sales@acme.com", "press@acme.com", "noreply@acme.com"]

/-- Search-API stub: one result whose content yields four addresses. -/
def srFour : Option (List (List String)) :=
  some [["a1@x.com", "a2@x.com", "a3@x.com", "a4@x.com"]]

/-- Page stub yielding two further addresses. -/
def fpTwoMore : String → Option (List String) := fun _ =>
  some ["b1@x.com", "b2@x.com"]

/-- Contact-page stub resolving to the X contact page. -/
def fcXContact : String → Option String := fun _ => some "https://x.com/contact"

/-- The record the base assembler returns when every collaborator fails. -/
def emptyBaseRec : BaseRecord where
  company := "A"
  website := "w"
  linkedin := ""
  service_category := "s"
  emails := []
  email_count := 0
  contact_page := ""
  status := "No emails found"

/-- The record the agent assembler returns when every collaborator fails. -/
def emptyAgentRec : AgentRecord where
  company := "A"
  website := "w"
  service := "s"
  emails := []
  email_count := 0
  status := "Partial"

/-! ### String groundwork -/

theorem char_ofNat_toNat {n : Nat} (h : n.isValidChar) :
    (Char.ofNat n).toNat = n := by
  rw [Char.ofNat, dif_pos h]
  rfl

theorem char_toLower_eq (c : Char) :
    c.toLower = if 65 ≤ c.toNat ∧ c.toNat ≤ 90 then Char.ofNat (c.toNat + 32)
      else c := rfl

theorem char_toLower_idem (c : Char) : c.toLower.toLower = c.toLower := by
  by_cases h : 65 ≤ c.toNat ∧ c.toNat ≤ 90
  · have hv : Nat.isValidChar (c.toNat + 32) := Or.inl (by omega)
    have h1 : (c.toLower).toNat = c.toNat + 32 := by
      rw [char_toLower_eq, if_pos h, char_ofNat_toNat hv]
    rw [char_toLower_eq c.toLower, if_neg (by omega)]
  · have h0 : c.toLower = c := by rw [char_toLower_eq, if_neg h]
    rw [h0, h0]

theorem pyLower_idem (s : String) : pyLower (pyLower s) = pyLower s := by
  simp only [pyLower, List.map_map]
  congr 1
  exact List.map_congr_left (fun c _ => char_toLower_idem c)

/-! ### Prober lemmas -/

theorem traced_snd_of_mem (fh : String → Option Nat) {cache : List String}
    {url : String} (h : url ∈ cache) :
    (check_url_exists_traced fh cache url).2 = (cache, []) := by
  simp [check_url_exists_traced, h]

theorem traced_snd_of_not_mem (fh : String → Option Nat) {cache : List String}
    {url : String} (h : url ∉ cache) :
    (check_url_exists_traced fh cache url).2 = (url :: cache, [url]) := by
  simp only [check_url_exists_traced, if_neg h]
  cases fh url <;> rfl

theorem probe_run_not_mem_cache (fh : String → Option Nat) :
    ∀ (urls cache : List String) (u : String),
      u ∈ probe_run fh cache urls → u ∉ cache := by
  intro urls
  induction urls with
  | nil => intro cache u h; simp [probe_run] at h
  | cons url rest ih =>
    intro cache u h
    by_cases hm : url ∈ cache
    · rw [probe_run, traced_snd_of_mem fh hm] at h
      exact ih cache u h
    · rw [probe_run, traced_snd_of_not_mem fh hm] at h
      rcases List.mem_append.mp h with h1 | h2
      · rcases List.mem_singleton.mp h1 with rfl
        exact hm
      · intro hc
        exact ih (url :: cache) u h2 (List.mem_cons_of_mem _ hc)

theorem probe_run_nodup (fh : String → Option Nat) :
    ∀ (urls cache : List String), (probe_run fh cache urls).Nodup := by
  intro urls
  induction urls with
  | nil => intro cache; simp [probe_run]
  | cons url rest ih =>
    intro cache
    by_cases hm : url ∈ cache
    · rw [probe_run, traced_snd_of_mem fh hm]
      exact ih cache
    · rw [probe_run, traced_snd_of_not_mem fh hm]
      rw [List.singleton_append, List.nodup_cons]
      refine ⟨fun hmem => ?_, ih (url :: cache)⟩
      exact probe_run_not_mem_cache fh rest (url :: cache) url hmem
        (List.mem_cons_self _ _)

/-- C1: within one run, no URL is probed twice — once a URL is in the
ProbeCache no later prober call issues a network request for it, and over
any sequence of prober calls each URL accounts for at most one network
request (the trace of issued requests is duplicate-free). -/
theorem no_url_probed_twice (fh : String → Option Nat)
    (cache urls : List String) (u : String) :
    (probe_run fh cache urls).count u ≤ 1 ∧
    (u ∈ cache → u ∉ probe_run fh cache urls) := by
  refine ⟨List.nodup_iff_count_le_one.mp (probe_run_nodup fh urls cache) u, ?_⟩
  intro hc hmem
  exact probe_run_not_mem_cache fh urls cache u hmem hc

theorem no_url_probed_twice_witness :
    "https://a.com" ∈ ["https://a.com"] ∧
    "https://a.com" ∉ probe_run (fun _ => some 200) ["https://a.com"]
      ["https://a.com", "https://b.com", "https://b.com"] ∧
    (probe_run (fun _ => some 200) ["https://a.com"]
      ["https://a.com", "https://b.com", "https://b.com"]).count "https://b.com"
      ≤ 1 :=
  ⟨by decide,
   (no_url_probed_twice (fun _ => some 200) ["https://a.com"]
     ["https://a.com", "https://b.com", "https://b.com"] "https://a.com").2
     (by decide),
   (no_url_probed_twice (fun _ => some 200) ["https://a.com"]
     ["https://a.com", "https://b.com", "https://b.com"] "https://b.com").1⟩

/-- C5: the prober answers `true` exactly when the URL was not a cache-hit
and the (redirect-following) HEAD request returned status exactly 200; a
cache-hit, a non-200 status, or an exception (`none`) all yield `false`,
and the function is total (the blanket `except` never lets an exception
propagate). -/
theorem prober_true_iff_200 (fh : String → Option Nat) (cache : List String)
    (url : String) :
    (check_url_exists fh cache url).1 = true ↔
      url ∉ cache ∧ fh url = some 200 := by
  by_cases hm : url ∈ cache
  · simp [check_url_exists, hm]
  · rcases hf : fh url with _ | s
    · simp [check_url_exists, hm, hf]
    · simp [check_url_exists, hm, hf, beq_iff_eq]

theorem prober_true_iff_200_witness :
    (check_url_exists (fun _ => some 200) [] "https://a.com").1 = true :=
  (prober_true_iff_200 (fun _ => some 200) [] "https://a.com").mpr
    ⟨by decide, rfl⟩

/-- C9 as stated is false: with a single fresh ProbeCache the second probe
of a live URL is a cache-hit and returns `false` while the first returns
`true`. -/
theorem probe_idempotence_cex :
    (probe_twice (fun _ => some 200) "https://acmecorp.com").1 ≠
    (probe_twice (fun _ => some 200) "https://acmecorp.com").2 := by decide

/-- C9 amended: with a single fresh ProbeCache the second probe of the same
URL always returns `false` (cache-hit), so the two probes agree exactly
when the first probe already returned `false`. -/
theorem probe_twice_second_false (fh : String → Option Nat) (url : String) :
    (probe_twice fh url).2 = false ∧
    ((probe_twice fh url).1 = (probe_twice fh url).2 ↔
      (probe_twice fh url).1 = false) := by
  have h2 : (probe_twice fh url).2 = false := by
    simp only [probe_twice, check_url_exists, List.not_mem_nil, if_false]
    cases fh url <;> simp
  exact ⟨h2, by rw [h2]⟩

theorem probe_twice_second_false_witness :
    (probe_twice (fun _ => none) "https://a.com").2 = false :=
  (probe_twice_second_false (fun _ => none) "https://a.com").1

/-! ### Extractor lemmas -/

theorem base_extract_length_le (fp : String → Option (List String))
    (cfg : Config) (url : String) :
    (base_extract fp cfg url).length ≤ cfg.max_emails_per_company := by
  unfold base_extract
  cases fp url with
  | none => simp
  | some cs => simp

theorem agent_extract_length_le (fp : String → Option (List String))
    (cfg : Config) (url : String) :
    (agent_extract fp cfg url).length ≤ cfg.max_emails_per_company := by
  unfold agent_extract
  cases fp url with
  | none => simp
  | some cs => simp

theorem base_extract_mem (fp : String → Option (List String)) (cfg : Config)
    (url e : String) (h : e ∈ base_extract fp cfg url) :
    ∀ pat ∈ cfg.ignore_email_patterns, pyContains (pyLower e) pat = false := by
  unfold base_extract at h
  cases hfp : fp url with
  | none => rw [hfp] at h; simp at h
  | some cs =>
    rw [hfp] at h
    have h' := List.mem_of_mem_take h
    have hp := List.of_mem_filter h'
    rw [Bool.not_eq_true'] at hp
    intro pat hpat
    by_contra hcon
    rw [Bool.not_eq_false] at hcon
    exact absurd hp (by simp [List.any_eq_true]; exact ⟨pat, hpat, hcon⟩)

theorem agent_extract_mem (fp : String → Option (List String)) (cfg : Config)
    (url e : String) (h : e ∈ agent_extract fp cfg url) :
    ∃ e₀, e = pyLower e₀ ∧
      ∀ pat ∈ cfg.ignore_email_patterns, pyContains (pyLower e₀) pat = false := by
  unfold agent_extract at h
  cases hfp : fp url with
  | none => rw [hfp] at h; simp at h
  | some cs =>
    rw [hfp] at h
    have h' := List.mem_of_mem_take h
    rcases List.mem_map.mp h' with ⟨e₀, he₀, rfl⟩
    have hp := List.of_mem_filter he₀
    rw [Bool.not_eq_true'] at hp
    refine ⟨e₀, rfl, fun pat hpat => ?_⟩
    by_contra hcon
    rw [Bool.not_eq_false] at hcon
    exact absurd hp (by simp [List.any_eq_true]; exact ⟨pat, hpat, hcon⟩)

theorem base_patterns_lower_fixed :
    ∀ pat ∈ baseConfig.ignore_email_patterns, pyLower pat = pat := by decide

theorem agent_patterns_lower_fixed :
    ∀ pat ∈ agentConfig.ignore_email_patterns, pyLower pat = pat := by decide

/-- C3: in both variants the extractor's result never contains an address
whose lowercased form contains a (lowercased) deny-listed substring, and
the result length never exceeds the configured maximum (5 in both
configurations). -/
theorem extractor_filter_and_bound (fp : String → Option (List String))
    (url : String) :
    ((base_extract fp baseConfig url).length ≤ 5 ∧
     ∀ e ∈ base_extract fp baseConfig url,
       ∀ pat ∈ baseConfig.ignore_email_patterns,
         pyContains (pyLower e) (pyLower pat) = false)
  ∧ ((agent_extract fp agentConfig url).length ≤ 5 ∧
     ∀ e ∈ agent_extract fp agentConfig url,
       ∀ pat ∈ agentConfig.ignore_email_patterns,
         pyContains (pyLower e) (pyLower pat) = false) := by
  refine ⟨⟨base_extract_length_le fp baseConfig url, ?_⟩,
    ⟨agent_extract_length_le fp agentConfig url, ?_⟩⟩
  · intro e he pat hpat
    rw [base_patterns_lower_fixed pat hpat]
    exact base_extract_mem fp baseConfig url e he pat hpat
  · intro e he pat hpat
    rcases agent_extract_mem fp agentConfig url e he with ⟨e₀, rfl, hf⟩
    rw [agent_patterns_lower_fixed pat hpat, pyLower_idem]
    exact hf pat hpat

theorem extractor_filter_and_bound_witness :
    "sales@acme.com" ∈ base_extract fpThree baseConfig "https://acme.com" ∧
    "noreply" ∈ baseConfig.ignore_email_patterns ∧
    pyContains (pyLower "sales@acme.com") (pyLower "noreply") = false :=
  ⟨by decide, by decide,
   (extractor_filter_and_bound fpThree "https://acme.com").1.2 "sales@acme.com"
     (by decide) "noreply" (by decide)⟩

/-- C8: in both variants the extractor answers `[]` on a fetch/parse
exception and `[]` on a page yielding no candidate at all, and (being a
total function of the stubbed fetch) never propagates an exception. -/
theorem extractor_exception_empty (fp : String → Option (List String))
    (url : String) :
    (fp url = none →
      base_extract fp baseConfig url = [] ∧
      agent_extract fp agentConfig url = [])
  ∧ (fp url = some [] →
      base_extract fp baseConfig url = [] ∧
      agent_extract fp agentConfig url = []) := by
  constructor <;> intro h <;>
    exact ⟨by simp [base_extract, h], by simp [agent_extract, h]⟩

theorem extractor_exception_empty_witness :
    base_extract fpNone baseConfig "https://a.com" = [] ∧
    agent_extract fpNone agentConfig "https://a.com" = [] :=
  (extractor_exception_empty fpNone "https://a.com").1 rfl

/-! ### Domain-resolver candidate sets -/

theorem mem_pair_iff_pre (name d u : String) :
    u ∈ ["https://" ++ name ++ "." ++ d, "https://www." ++ name ++ "." ++ d] ↔
    ∃ pre ∈ (["", "www."] : List String),
      u = "https://" ++ pre ++ name ++ "." ++ d := by
  have e0 : ("https://" ++ "" : String) = "https://" := by decide
  have e1 : ("https://" ++ "www." : String) = "https://www." := by decide
  constructor
  · intro h
    rcases List.mem_cons.mp h with rfl | h
    · exact ⟨"", by decide, by rw [e0]⟩
    rcases List.mem_cons.mp h with rfl | h
    · exact ⟨"www.", by decide, by rw [e1]⟩
    · cases h
  · rintro ⟨pre, hpre, rfl⟩
    rcases List.mem_cons.mp hpre with rfl | hpre
    · rw [e0]; exact List.mem_cons_self _ _
    rcases List.mem_cons.mp hpre with rfl | hpre
    · rw [e1]; exact List.mem_cons.mpr (Or.inr (List.mem_cons_self _ _))
    · cases hpre

theorem base_candidates_eq_spec (cfg : Config) (company u : String) :
    u ∈ base_candidate_urls cfg company ↔
    u ∈ spec_pattern_candidates cfg.email_domains company := by
  unfold base_candidate_urls spec_pattern_candidates base_name_variants
  simp only [List.mem_flatMap, List.mem_map]
  constructor
  · rintro ⟨name, hname, d, hd, hu⟩
    rcases (mem_pair_iff_pre name d u).mp hu with ⟨pre, hpre, rfl⟩
    exact ⟨name, hname, d, hd, pre, hpre, rfl⟩
  · rintro ⟨name, hname, d, hd, pre, hpre, rfl⟩
    exact ⟨name, hname, d, hd,
      (mem_pair_iff_pre name d _).mpr ⟨pre, hpre, rfl⟩⟩

theorem agent_candidates_eq (cfg : Config) (company u : String) :
    u ∈ agent_candidate_urls cfg company ↔
    (u ∈ spec_pattern_candidates cfg.email_domains company ∨
     ∃ d ∈ cfg.email_domains, ∃ pre ∈ (["", "www."] : List String),
       u = "https://" ++ pre ++
         pyReplaceChar '&' "and" (pyReplaceChar ' ' "" (pyLower company)) ++
         "." ++ d) := by
  unfold agent_candidate_urls spec_pattern_candidates agent_name_variations
  simp only [List.mem_flatMap, List.mem_map, List.mem_cons,
    List.not_mem_nil, or_false, List.mem_singleton]
  constructor
  · rintro ⟨name, hname, d, hd, pre, hpre, rfl⟩
    rcases hname with rfl | rfl | rfl | rfl
    · exact Or.inl ⟨_, Or.inl rfl, d, hd, pre, hpre, rfl⟩
    · exact Or.inl ⟨_, Or.inr (Or.inl rfl), d, hd, pre, hpre, rfl⟩
    · exact Or.inr ⟨d, hd, pre, hpre, rfl⟩
    · exact Or.inl ⟨_, Or.inr (Or.inr rfl), d, hd, pre, hpre, rfl⟩
  · rintro (⟨name, hname, d, hd, pre, hpre, rfl⟩ | ⟨d, hd, pre, hpre, rfl⟩)
    · rcases hname with rfl | rfl | rfl
      · exact ⟨_, Or.inl rfl, d, hd, pre, hpre, rfl⟩
      · exact ⟨_, Or.inr (Or.inl rfl), d, hd, pre, hpre, rfl⟩
      · exact ⟨_, Or.inr (Or.inr (Or.inr rfl)), d, hd, pre, hpre, rfl⟩
    · exact ⟨_, Or.inr (Or.inr (Or.inl rfl)), d, hd, pre, hpre, rfl⟩

/-- C6 as stated is false for the agent variant: for the company `A & B`
the pattern phase also probes `https://aandb.com`, built from a fourth name
variant (`&` replaced by `and`), which is outside the cross product of the
three spec variants with the TLD list and the two prefixes. -/
theorem resolver_variants_cex :
    "https://aandb.com" ∈ agent_candidate_urls agentConfig "A & B" ∧
    "https://aandb.com" ∉
      spec_pattern_candidates agentConfig.email_domains "A & B" := by decide

/-- C6 amended: the base variant's pattern-phase candidate set is exactly
the cross product of the three spec variants with the TLD list and the two
prefixes; the agent variant's candidate set additionally contains the URLs
built from a fourth variant, lowercase with spaces removed and `&` replaced
by `and`. -/
theorem resolver_candidate_sets (company u : String) :
    (u ∈ base_candidate_urls baseConfig company ↔
      u ∈ spec_pattern_candidates baseConfig.email_domains company)
  ∧ (u ∈ agent_candidate_urls agentConfig company ↔
      (u ∈ spec_pattern_candidates agentConfig.email_domains company ∨
       ∃ d ∈ agentConfig.email_domains, ∃ pre ∈ (["", "www."] : List String),
         u = "https://" ++ pre ++
           pyReplaceChar '&' "and" (pyReplaceChar ' ' "" (pyLower company)) ++
           "." ++ d)) :=
  ⟨base_candidates_eq_spec baseConfig company u,
   agent_candidates_eq agentConfig company u⟩

theorem resolver_candidate_sets_witness :
    "https://acmecorp.com" ∈ base_candidate_urls baseConfig "Acme Corp" ∧
    "https://acmecorp.com" ∈
      spec_pattern_candidates baseConfig.email_domains "Acme Corp" :=
  ⟨by decide,
   (resolver_candidate_sets "Acme Corp" "https://acmecorp.com").1.mp
     (by decide)⟩

/-! ### Assembler lemmas -/

theorem base_deeper_search_length_le (fh : String → Option Nat)
    (fp : String → Option (List String)) (j : String → String → String)
    (cfg : Config) (w : String) :
    ∀ (pages cache : List String),
      (base_deeper_search fh fp j cfg w cache pages).1.length ≤
        cfg.max_emails_per_company := by
  intro pages
  induction pages with
  | nil => intro cache; simp [base_deeper_search]
  | cons p rest ih =>
    intro cache
    rw [base_deeper_search]
    dsimp only
    split
    · split
      · exact ih _
      · exact base_extract_length_le fp cfg _
    · exact ih _

theorem base_extract_nodup (fp : String → Option (List String)) (cfg : Config)
    (url : String) (hset : ∀ u cs, fp u = some cs → cs.Nodup) :
    (base_extract fp cfg url).Nodup := by
  unfold base_extract
  cases hfp : fp url with
  | none => simp
  | some cs =>
    exact List.Nodup.sublist (List.take_sublist _ _)
      ((hset url cs hfp).filter _)

theorem base_deeper_search_nodup (fh : String → Option Nat)
    (fp : String → Option (List String)) (j : String → String → String)
    (cfg : Config) (w : String) (hset : ∀ u cs, fp u = some cs → cs.Nodup) :
    ∀ (pages cache : List String),
      (base_deeper_search fh fp j cfg w cache pages).1.Nodup := by
  intro pages
  induction pages with
  | nil => intro cache; simp [base_deeper_search]
  | cons p rest ih =>
    intro cache
    rw [base_deeper_search]
    dsimp only
    split
    · split
      · exact ih _
      · exact base_extract_nodup fp cfg _ hset
    · exact ih _

theorem base_gathered_length (fp : String → Option (List String))
    (fc : String → Option String) (cfg : Config) (w : String) :
    ((base_email_sources fc w).flatMap
      (fun src => base_extract fp cfg src)).length ≤
      2 * cfg.max_emails_per_company := by
  unfold base_email_sources
  have h1 := base_extract_length_le fp cfg w
  cases hfc : fc w with
  | none =>
    simp only [List.append_nil, List.flatMap_cons, List.flatMap_nil,
      List.length_append, List.length_nil]
    omega
  | some cp =>
    dsimp only
    by_cases hcp : cp ≠ w
    · have h2 := base_extract_length_le fp cfg cp
      simp only [if_pos hcp, List.cons_append, List.nil_append,
        List.flatMap_cons, List.flatMap_nil, List.length_append,
        List.length_nil]
      omega
    · simp only [if_neg hcp, List.append_nil, List.flatMap_cons,
        List.flatMap_nil, List.length_append, List.length_nil]
      omega

theorem base_all_emails_length_le (fh : String → Option Nat)
    (fp : String → Option (List String)) (fc : String → Option String)
    (j : String → String → String) (cfg : Config) (cache : List String)
    (w : String) :
    (base_all_emails fh fp fc j cfg cache w).1.length ≤
      2 * cfg.max_emails_per_company := by
  unfold base_all_emails
  dsimp only
  split
  · have := base_deeper_search_length_le fh fp j cfg w
      ["/about", "/team", "/company", "/leadership", "/people"] cache
    omega
  · exact le_trans
      (List.Sublist.length_le (List.dedup_sublist _))
      (base_gathered_length fp fc cfg w)

theorem base_all_emails_nodup (fh : String → Option Nat)
    (fp : String → Option (List String)) (fc : String → Option String)
    (j : String → String → String) (cfg : Config) (cache : List String)
    (w : String) (hset : ∀ u cs, fp u = some cs → cs.Nodup) :
    (base_all_emails fh fp fc j cfg cache w).1.Nodup := by
  unfold base_all_emails
  dsimp only
  split
  · exact base_deeper_search_nodup fh fp j cfg w hset _ _
  · exact List.nodup_dedup _

theorem base_record_eq (fh : String → Option Nat)
    (fp : String → Option (List String)) (fl fc : String → Option String)
    (j : String → String → String) (cfg : Config) (cache : List String)
    (company sc w : String) (r : BaseRecord)
    (hb : (base_get_company_info fh fp fl fc j cfg cache company sc
        (some w)).1 = some r) :
    r = { company := company, website := w, linkedin := (fl company).getD "",
          service_category := sc,
          emails := (base_all_emails fh fp fc j cfg cache w).1,
          email_count := (base_all_emails fh fp fc j cfg cache w).1.length,
          contact_page := (fc w).getD "",
          status := if (base_all_emails fh fp fc j cfg cache w).1 = []
            then "No emails found" else "Success" } := by
  simp only [base_get_company_info, Option.some.injEq] at hb
  exact hb.symm

theorem agent_record_eq (sr : Option (List (List String)))
    (fp : String → Option (List String)) (fc : String → Option String)
    (cfg : Config) (company sv w : String) (r' : AgentRecord)
    (ha : agent_get_company_info sr fp fc cfg company sv (some w) = some r') :
    r' = { company := company, website := w, service := sv,
           emails := (agent_final_emails sr fp fc cfg w).take
             cfg.max_emails_per_company,
           email_count := (agent_final_emails sr fp fc cfg w).length,
           status := if agent_final_emails sr fp fc cfg w = []
             then "Partial" else "Success" } := by
  simp only [agent_get_company_info, Option.some.injEq] at ha
  exact ha.symm

theorem search_emails_lower (sr : Option (List (List String))) (cfg : Config)
    (e : String) (h : e ∈ search_emails_with_api sr cfg) :
    ∃ x, e = pyLower x := by
  unfold search_emails_with_api at h
  cases sr with
  | none => simp at h
  | some results =>
    dsimp only at h
    have h1 := List.mem_dedup.mp (List.mem_of_mem_take h)
    rcases List.mem_flatMap.mp h1 with ⟨found, _, hf⟩
    rcases List.mem_map.mp hf with ⟨x, _, rfl⟩
    exact ⟨x, rfl⟩

theorem agent_final_emails_nodup (sr : Option (List (List String)))
    (fp : String → Option (List String)) (fc : String → Option String)
    (cfg : Config) (w : String) :
    (agent_final_emails sr fp fc cfg w).Nodup := by
  unfold agent_final_emails
  dsimp only
  split
  · cases fc w with
    | some cp => exact List.nodup_dedup _
    | none => exact List.nodup_dedup _
  · exact List.nodup_dedup _

theorem agent_final_emails_lower (sr : Option (List (List String)))
    (fp : String → Option (List String)) (fc : String → Option String)
    (cfg : Config) (w : String) (e : String)
    (h : e ∈ agent_final_emails sr fp fc cfg w) : ∃ x, e = pyLower x := by
  unfold agent_final_emails at h
  dsimp only at h
  have hapi : ∀ e', e' ∈ (search_emails_with_api sr cfg).dedup →
      ∃ x, e' = pyLower x :=
    fun e' he' => search_emails_lower sr cfg e' (List.mem_dedup.mp he')
  split at h
  · cases hfc : fc w with
    | some cp =>
      rw [hfc] at h
      rcases List.mem_append.mp (List.mem_dedup.mp h) with h1 | h2
      · exact hapi e h1
      · rcases agent_extract_mem fp cfg cp e h2 with ⟨x, rfl, _⟩
        exact ⟨x, rfl⟩
    | none =>
      rw [hfc] at h
      exact hapi e h
  · exact hapi e h

theorem lower_fixed_pairwise {l : List String} (hn : l.Nodup)
    (hl : ∀ e ∈ l, ∃ x, e = pyLower x) :
    l.Pairwise (fun a b => pyLower a ≠ pyLower b) := by
  refine List.Pairwise.imp_of_mem ?_ hn
  intro a b ha hb hne
  rcases hl a ha with ⟨x, rfl⟩
  rcases hl b hb with ⟨y, rfl⟩
  rw [pyLower_idem, pyLower_idem]
  exact fun hxy => hne (by rw [hxy])

/-- C2 as stated is false for the base variant: with five filter-passing
addresses on the website and five distinct ones on the contact page, the
assembled record holds ten e-mails, exceeding `max_emails_per_company = 5`
(the base assembler never re-truncates). -/
theorem assembler_email_bound_cex :
    ((base_get_company_info fhNone fpTwoPages fsNone fcAcmeContact joinCat
        baseConfig [] "Acme Corp" "analytics" (some "https://acme.com")).1.map
      (fun r => r.emails.length)) = some 10 ∧
    ¬ (10 ≤ baseConfig.max_emails_per_company) := by decide

/-- C2 amended: the agent record's e-mail list is truncated to
`max_emails_per_company`; the base record's e-mail list is only bounded by
twice that maximum (one per-page-truncated extraction for the website and
one for a distinct contact page; the deeper-search fallback contributes at
most one page's worth). -/
theorem assembler_email_bound (fh : String → Option Nat)
    (fp : String → Option (List String)) (fl fc : String → Option String)
    (j : String → String → String) (cfg : Config) (cache : List String)
    (company sc w w' : String) (r : BaseRecord)
    (sr : Option (List (List String))) (r' : AgentRecord)
    (hb : (base_get_company_info fh fp fl fc j cfg cache company sc
        (some w)).1 = some r)
    (ha : agent_get_company_info sr fp fc cfg company sc (some w') = some r') :
    r.emails.length ≤ 2 * cfg.max_emails_per_company ∧
    r'.emails.length ≤ cfg.max_emails_per_company := by
  rw [base_record_eq fh fp fl fc j cfg cache company sc w r hb,
    agent_record_eq sr fp fc cfg company sc w' r' ha]
  exact ⟨base_all_emails_length_le fh fp fc j cfg cache w,
    List.length_take_le _ _⟩

theorem assembler_email_bound_witness :
    emptyBaseRec.emails.length ≤ 2 * baseConfig.max_emails_per_company ∧
    emptyAgentRec.emails.length ≤ baseConfig.max_emails_per_company :=
  assembler_email_bound fhNone fpNone fsNone fsNone joinCat baseConfig []
    "A" "s" "w" "w" emptyBaseRec none emptyAgentRec (by decide) (by decide)

/-- C4 as stated is false for the base variant: a page carrying the same
address in two casings yields a record listing both, and
`list(set(all_emails))` does not merge them. -/
theorem record_ci_dedup_cex :
    ((base_get_company_info fhNone fpMixedCase fsNone fsNone joinCat
        baseConfig [] "X" "s" (some "https://x.com")).1.map
      (fun r => r.emails)) = some ["A@x.com", "a@x.com"] ∧
    pyLower "A@x.com" = pyLower "a@x.com" ∧ "A@x.com" ≠ "a@x.com" := by decide

/-- C4 amended: the agent record's e-mails are deduplicated
case-insensitively (every stored address is lowercased first, so exact
deduplication coincides with case-insensitive deduplication); the base
record's e-mails are only deduplicated as exact strings (given candidate
sets, which are Python sets, are duplicate-free). -/
theorem record_dedup (fh : String → Option Nat)
    (fp : String → Option (List String)) (fl fc : String → Option String)
    (j : String → String → String) (cfg : Config) (cache : List String)
    (company sc w w' : String) (r : BaseRecord)
    (sr : Option (List (List String))) (r' : AgentRecord)
    (hset : ∀ u cs, fp u = some cs → cs.Nodup)
    (hb : (base_get_company_info fh fp fl fc j cfg cache company sc
        (some w)).1 = some r)
    (ha : agent_get_company_info sr fp fc cfg company sc (some w') = some r') :
    r.emails.Nodup ∧
    r'.emails.Pairwise (fun a b => pyLower a ≠ pyLower b) := by
  rw [base_record_eq fh fp fl fc j cfg cache company sc w r hb,
    agent_record_eq sr fp fc cfg company sc w' r' ha]
  exact ⟨base_all_emails_nodup fh fp fc j cfg cache w hset,
    List.Pairwise.sublist (List.take_sublist _ _)
      (lower_fixed_pairwise (agent_final_emails_nodup sr fp fc cfg w')
        (agent_final_emails_lower sr fp fc cfg w'))⟩

theorem record_dedup_witness :
    emptyBaseRec.emails.Nodup ∧
    emptyAgentRec.emails.Pairwise (fun a b => pyLower a ≠ pyLower b) :=
  record_dedup fhNone fpNone fsNone fsNone joinCat baseConfig [] "A" "s"
    "w" "w" emptyBaseRec none emptyAgentRec (fun _ _ h => nomatch h)
    (by decide) (by decide)

/-- C7: in both variants the record's status is `Success` exactly when the
final e-mail set is non-empty; an empty set yields the base status string
(spelled `No emails found` in the code) and `Partial` in the agent variant,
whose record always carries the resolved website (the obtained signal). -/
theorem record_status (fh : String → Option Nat)
    (fp : String → Option (List String)) (fl fc : String → Option String)
    (j : String → String → String) (cfg : Config) (cache : List String)
    (company sc w w' : String) (r : BaseRecord)
    (sr : Option (List (List String))) (r' : AgentRecord)
    (hb : (base_get_company_info fh fp fl fc j cfg cache company sc
        (some w)).1 = some r)
    (ha : agent_get_company_info sr fp fc cfg company sc (some w') = some r') :
    ((r.status = "Success" ↔ r.emails ≠ []) ∧
     (r.emails = [] → r.status = "No emails found")) ∧
    ((r'.status = "Success" ↔ r'.email_count ≠ 0) ∧
     (r'.email_count = 0 → r'.status = "Partial") ∧
     r'.website = w') := by
  rw [base_record_eq fh fp fl fc j cfg cache company sc w r hb,
    agent_record_eq sr fp fc cfg company sc w' r' ha]
  have hne : ("No emails found" : String) ≠ "Success" := by decide
  have hne' : ("Partial" : String) ≠ "Success" := by decide
  refine ⟨?_, ?_, ?_, rfl⟩
  · dsimp only
    by_cases h : (base_all_emails fh fp fc j cfg cache w).1 = [] <;>
      simp [h, hne]
  · dsimp only
    by_cases h : agent_final_emails sr fp fc cfg w' = [] <;>
      simp [h, hne', List.length_eq_zero]
  · dsimp only
    intro h
    rw [List.length_eq_zero] at h
    simp [h]

theorem record_status_witness :
    (emptyBaseRec.status = "Success" ↔ emptyBaseRec.emails ≠ []) ∧
    (emptyAgentRec.email_count = 0 → emptyAgentRec.status = "Partial") :=
  ⟨(record_status fhNone fpNone fsNone fsNone joinCat baseConfig [] "A" "s"
      "w" "w" emptyBaseRec none emptyAgentRec (by decide) (by decide)).1.1,
   (record_status fhNone fpNone fsNone fsNone joinCat baseConfig [] "A" "s"
      "w" "w" emptyBaseRec none emptyAgentRec (by decide) (by decide)).2.2.1⟩

/-- C10 as stated is false for the agent variant: four search-API addresses
plus two scraped ones give a set of six, so `email_count = 6` while the
record's e-mail cell lists only the five survivors of the truncation. -/
theorem email_count_cex :
    ((agent_get_company_info srFour fpTwoMore fcXContact agentConfig "X" "s"
        (some "https://x.com")).map
      (fun r => (r.email_count, r.emails.length))) = some (6, 5) ∧
    (6 : Nat) ≠ 5 := by decide

/-- C10 amended: the base record's `email_count` equals the number of
addresses listed in its e-mail cell; the agent record's `email_count` is
the size of the full deduplicated set, of which only the first
`max_emails_per_company` are listed, so the listed number is the minimum of
the two and never exceeds the count. -/
theorem email_count_eq (fh : String → Option Nat)
    (fp : String → Option (List String)) (fl fc : String → Option String)
    (j : String → String → String) (cfg : Config) (cache : List String)
    (company sc w w' : String) (r : BaseRecord)
    (sr : Option (List (List String))) (r' : AgentRecord)
    (hb : (base_get_company_info fh fp fl fc j cfg cache company sc
        (some w)).1 = some r)
    (ha : agent_get_company_info sr fp fc cfg company sc (some w') = some r') :
    r.email_count = r.emails.length ∧
    r'.emails.length = min cfg.max_emails_per_company r'.email_count ∧
    r'.emails.length ≤ r'.email_count := by
  rw [base_record_eq fh fp fl fc j cfg cache company sc w r hb,
    agent_record_eq sr fp fc cfg company sc w' r' ha]
  refine ⟨rfl, List.length_take _ _, ?_⟩
  dsimp only
  rw [List.length_take]
  exact Nat.min_le_right _ _

theorem email_count_eq_witness :
    emptyBaseRec.email_count = emptyBaseRec.emails.length ∧
    emptyAgentRec.emails.length ≤ emptyAgentRec.email_count :=
  ⟨(email_count_eq fhNone fpNone fsNone fsNone joinCat baseConfig [] "A" "s"
      "w" "w" emptyBaseRec none emptyAgentRec (by decide) (by decide)).1,
   (email_count_eq fhNone fpNone fsNone fsNone joinCat baseConfig [] "A" "s"
      "w" "w" emptyBaseRec none emptyAgentRec (by decide) (by decide)).2.2⟩
